import Mathlib

/-!
Verification of the send-scheduling and campaign-orchestration subsystem of
the whatsappSendMsg repository (`app/tasks.py`, backed by `app/db.py`).

The embedding follows the asyncio cooperative-concurrency model of the source:
code between two suspension points (`await _send_semaphore.acquire()` and the
`await worker.select_and_send_async(...)` call inside `schedule_send_message`)
runs atomically with respect to all other coroutines, because the synchronous
sqlite calls (`db.set_account_in_use_atomic`, `db.set_account_in_use`,
`db.update_account_usage`) and `Semaphore.release()` never yield to the event
loop.  A `schedule_send_message` invocation is therefore a small state machine
with two atomic steps, and an arbitrary interleaving of invocations is a list
of task indices fed to a step function.

`schedule_bulk_send` dispatches its children strictly sequentially (it awaits
each `schedule_send_message` before the next), so it is embedded as a pure
function from the campaign inputs, the per-child outcomes, and the value of
the cancellation flag at each round boundary, to the final bulk status, the
list of accumulated child results, and the trace of pacing delays.
-/

namespace WhatsAppSend

/-- Status strings written into the task registries by `make_status_struct`. -/
inductive TStatus where
  | queued
  | running
  | done
  | failed
  | error
  | cancelled
deriving DecidableEq

/-- Status record: the `status` and `error` fields of `make_status_struct`
(the `result` payload and `trace` are not needed for the claims below). -/
structure StatusRec where
  status : TStatus
  error : String
deriving DecidableEq

/-- Outcome of the external `worker.select_and_send_async` call for one task:
it returns a dict with `ok = True`, returns `ok = False` with an error code,
or raises an exception. -/
inductive SendOutcome where
  | ok
  | err (e : String)
  | exn (e : String)
deriving DecidableEq

/-- Static description of one `schedule_send_message` invocation: the target
account, whether `db.set_account_in_use_atomic` raises for this call, and the
outcome of `performSend` if it is reached.  Accounts are identified by `Nat`. -/
structure SendTask where
  account : Nat
  dbRaises : Bool
  outcome : SendOutcome
deriving DecidableEq

/-- Program counter of one `schedule_send_message` coroutine.
`waiting` is the region up to `await _send_semaphore.acquire()` (registry
status `queued`); `inSend` means suspended inside the `performSend` call
while holding the account lock (registry status `running`); `finished`
carries the terminal registry record. -/
inductive SendPc where
  | waiting
  | inSend
  | finished (r : StatusRec)
deriving DecidableEq

/-- Global scheduler state: the asyncio semaphore counter (`release` is
unbounded, so the counter is not capped at the configured capacity), the set
of accounts whose `in_use` flag is 1 in the database, and the program counter
of every task. -/
structure SchedState where
  sem : Int
  locked : List Nat
  pcs : List SendPc
deriving DecidableEq

/-- Primitive operations performed by the `finally` block of
`schedule_send_message` (lines 74-79 of `app/tasks.py`). -/
inductive PrimOp where
  | clearLock (a : Nat)
  | releaseSem
deriving DecidableEq

/-- Effect of one primitive operation:
`clearLock a` is `db.set_account_in_use(a, 0)` (an unconditional UPDATE of
the `in_use` flag to 0, modelled as succeeding);
`releaseSem` is `_send_semaphore.release()`. -/
def applyOp (s : SchedState) : PrimOp → SchedState
  | .clearLock a => { s with locked := s.locked.erase a }
  | .releaseSem => { s with sem := s.sem + 1 }

/-- The body of the `finally` block: clear the account lock, then release the
global permit, in that order (lines 75-79 of `app/tasks.py`). -/
def finallyOps (a : Nat) : List PrimOp :=
  [.clearLock a, .releaseSem]

/-- Run the `finally` block of `schedule_send_message` for account `a`. -/
def runFinally (s : SchedState) (a : Nat) : SchedState :=
  (finallyOps a).foldl applyOp s

/-- Terminal record produced by the post-`performSend` part of
`schedule_send_message` (lines 59-73): `done` on `ok`, `failed` with the
reported error code on a reported failure, `error` with the exception text on
an unexpected exception. -/
def outcomeRec : SendOutcome → StatusRec
  | .ok => ⟨.done, ""⟩
  | .err e => ⟨.failed, e⟩
  | .exn e => ⟨.error, e⟩

/-- One scheduler step for task `i`, embedding `schedule_send_message`.

A `waiting` task needs an available permit (`sem > 0`); having taken it, the
whole region up to the next suspension point runs atomically:
`db.set_account_in_use_atomic` either raises (lines 44-48: release the
permit, record `failed`/`db_error`, and `return` — which fires the `finally`
block), returns `False` because the account is locked (lines 50-54: release
the permit, record `failed`/`account_in_use`, `return` — again through the
`finally` block), or locks the account, after which the task suspends inside
`performSend`.

An `inSend` task completes its `performSend` call and runs the epilogue and
the `finally` block atomically.  A `finished` task, and a `waiting` task with
no permit available, cannot step. -/
def stepTask (ts : List SendTask) (s : SchedState) (i : Nat) : SchedState :=
  match ts[i]?, s.pcs[i]? with
  | some t, some .waiting =>
    if 0 < s.sem then
      let s1 : SchedState := { s with sem := s.sem - 1 }
      if t.dbRaises then
        runFinally
          { s1 with sem := s1.sem + 1,
                    pcs := s1.pcs.set i (.finished ⟨.failed, "db_error"⟩) }
          t.account
      else if t.account ∈ s1.locked then
        runFinally
          { s1 with sem := s1.sem + 1,
                    pcs := s1.pcs.set i (.finished ⟨.failed, "account_in_use"⟩) }
          t.account
      else
        { s1 with locked := t.account :: s1.locked,
                  pcs := s1.pcs.set i .inSend }
    else s
  | some t, some .inSend =>
    runFinally { s with pcs := s.pcs.set i (.finished (outcomeRec t.outcome)) } t.account
  | _, _ => s

/-- Run a whole interleaving: a list of task indices chosen by the event
loop, applied in order. -/
def runSched (ts : List SendTask) (s : SchedState) (sched : List Nat) : SchedState :=
  sched.foldl (stepTask ts) s

/-- Initial state: the semaphore holds the configured capacity
(`asyncio.Semaphore(MAX_CONCURRENT_SENDS)`), no account is locked, and all
`n` tasks are waiting. -/
def initState (capacity : Int) (n : Nat) : SchedState :=
  { sem := capacity, locked := [], pcs := List.replicate n .waiting }

/-- Number of tasks currently executing `performSend`. -/
def inSendCount (s : SchedState) : Nat :=
  s.pcs.countP (· = SendPc.inSend)

/-! ## Campaign runner (`schedule_bulk_send`, lines 88-172 of `app/tasks.py`) -/

/-- Outcome of one child `schedule_send_message` call as seen by the bulk
loop: either the call returned a dict (whose `ok` field the final aggregation
inspects), or it raised and the `except` branch recorded an `error` entry. -/
inductive ChildOutcome where
  | res (ok : Bool)
  | exn (msg : String)
deriving DecidableEq

/-- One entry of the `results` list accumulated by `schedule_bulk_send`:
`{"child_session": ..., "account": ..., "result": r}` on a normal return, or
`{"child_session": ..., "account": ..., "error": ...}` on an exception. -/
structure ChildEntry where
  childSession : String
  account : String
  outcome : ChildOutcome
deriving DecidableEq

/-- Observable events of a campaign run: dispatching the child for
(`round`, `accountIndex`), an `asyncio.sleep(account_delay)`, and an
`asyncio.sleep(round_delay)`. -/
inductive BulkEvent where
  | child (r a : Nat)
  | sleepAccount
  | sleepRound
deriving DecidableEq

/-- Derived child session id, line 140 of `app/tasks.py`:
`f"{session_id}_r{round_idx+1}_a{acc_idx+1}"`. -/
def childSid (sid : String) (r a : Nat) : String :=
  sid ++ "_r" ++ toString (r + 1) ++ "_a" ++ toString (a + 1)

/-- A Python truthiness test on the `ok` field of a child entry, as in the
final aggregation (line 163): an `error` entry has no `result` key and counts
as not successful. -/
def childSucceeded (e : ChildEntry) : Bool :=
  match e.outcome with
  | .res ok => ok
  | .exn _ => false

/-- Result of the inner `for acc_idx, (accid, prof) in enumerate(accounts)`
loop: accumulated child entries, emitted events, and the updated
`sent_count`. -/
structure AccOut where
  results : List ChildEntry
  events : List BulkEvent
  sent : Nat
deriving DecidableEq

/-- The inner account loop of `schedule_bulk_send` (lines 137-154) for round
`r`: for each account, unless `sent_count >= total_to_send` breaks the loop,
dispatch one child (whose outcome is given by the oracle `outcome` as a
function of round and account index), append its entry, increment
`sent_count`, and sleep `account_delay`. -/
def runAccounts (sid : String) (r : Nat) (outcome : Nat → Nat → ChildOutcome)
    (total : Nat) : List (String × String) → Nat → Nat → AccOut
  | [], _, sent => ⟨[], [], sent⟩
  | (accid, _) :: rest, aIdx, sent =>
    if total ≤ sent then ⟨[], [], sent⟩
    else
      let entry : ChildEntry :=
        { childSession := childSid sid r aIdx, account := accid, outcome := outcome r aIdx }
      let next := runAccounts sid r outcome total rest (aIdx + 1) (sent + 1)
      ⟨entry :: next.results,
       BulkEvent.child r aIdx :: BulkEvent.sleepAccount :: next.events,
       next.sent⟩

/-- Result of the outer `while round_idx < rounds` loop: whether the run was
cancelled at a round boundary, the accumulated child entries, the emitted
events, and the final `sent_count`. -/
structure RoundsOut where
  wasCancelled : Bool
  results : List ChildEntry
  events : List BulkEvent
  sent : Nat
deriving DecidableEq

/-- The outer round loop of `schedule_bulk_send` (lines 132-160).  The
cancellation flag is modelled as the oracle `cancel`, giving the value the
`cancelled()` check observes at the boundary of each round index.  If the
check fires, the loop returns immediately with the results accumulated so
far; otherwise the round's children run, `round_idx` is incremented, and a
`round_delay` sleep occurs whenever `round_idx < rounds` still holds. -/
def runRounds (sid : String) (accounts : List (String × String))
    (outcome : Nat → Nat → ChildOutcome) (cancel : Nat → Bool)
    (total rounds roundIdx sent : Nat) : RoundsOut :=
  if roundIdx < rounds then
    if cancel roundIdx then ⟨true, [], [], sent⟩
    else
      let ra := runAccounts sid roundIdx outcome total accounts 0 sent
      let rest := runRounds sid accounts outcome cancel total rounds (roundIdx + 1) ra.sent
      ⟨rest.wasCancelled,
       ra.results ++ rest.results,
       ra.events ++ (if roundIdx + 1 < rounds then BulkEvent.sleepRound :: rest.events else rest.events),
       rest.sent⟩
  else ⟨false, [], [], sent⟩
termination_by rounds - roundIdx

/-- Number of rounds, lines 115-119: one round in per-account mode, otherwise
`count` rounds when `count > 0` and zero rounds otherwise. -/
def bulkRounds (perAccount : Bool) (count : Int) : Nat :=
  if perAccount then 1 else (if 0 < count then count.toNat else 0)

/-- Value of `total_to_send`, lines 115-120. -/
def bulkTotal (perAccount : Bool) (count : Int) (numAccounts : Nat) : Nat :=
  if perAccount then numAccounts else numAccounts * bulkRounds perAccount count

/-- Final state of a campaign: registry status and error plus the
`requested_count` and `results` fields of its payload, together with the
event trace. -/
structure BulkResult where
  status : TStatus
  error : String
  requestedCount : Nat
  results : List ChildEntry
  events : List BulkEvent
deriving DecidableEq

/-- Embedding of `schedule_bulk_send` (lines 88-172 of `app/tasks.py`).
`accounts` is the snapshot `db.list_accounts()` provides at campaign start,
already reduced to its `(account_id, profile_path)` pairs;
`outcome` gives each child's result and `cancel` the cancellation flag seen
at each round boundary.  An empty snapshot fails immediately with
`no_accounts` (lines 105-108); a run whose boundary check observed the
cancellation flag finalizes as `cancelled` with `requested_count` equal to
`sent_count` (lines 133-136); otherwise the final status is `done` when some
child entry has a true `ok` field and `failed` with `no_success` when none
has (lines 162-168). -/
def schedule_bulk_send (sid : String) (count : Int) (perAccount : Bool)
    (accounts : List (String × String)) (outcome : Nat → Nat → ChildOutcome)
    (cancel : Nat → Bool) : BulkResult :=
  if accounts.isEmpty then
    { status := .failed, error := "no_accounts", requestedCount := 0, results := [], events := [] }
  else
    let rounds := bulkRounds perAccount count
    let total := bulkTotal perAccount count accounts.length
    let ro := runRounds sid accounts outcome cancel total rounds 0 0
    if ro.wasCancelled then
      { status := .cancelled, error := "", requestedCount := ro.sent,
        results := ro.results, events := ro.events }
    else if ro.results.any childSucceeded then
      { status := .done, error := "", requestedCount := total,
        results := ro.results, events := ro.events }
    else
      { status := .failed, error := "no_success", requestedCount := total,
        results := ro.results, events := ro.events }

/-! ## Expected shapes used in the theorem statements below -/

/-- Expected children of one round over an account list, starting at account
index `aIdx`: snapshot order, with the child session id derived from the
parent id, the round index and the account index. -/
def expectedChildren (sid : String) (r : Nat) (outcome : Nat → Nat → ChildOutcome) :
    List (String × String) → Nat → List ChildEntry
  | [], _ => []
  | (accid, _) :: rest, aIdx =>
    { childSession := childSid sid r aIdx, account := accid, outcome := outcome r aIdx }
      :: expectedChildren sid r outcome rest (aIdx + 1)

/-- Expected event block of one full round over `n` accounts: each child is
followed by exactly one `account_delay` sleep. -/
def roundBlock (r n : Nat) : List BulkEvent :=
  (List.range n).flatMap fun a => [BulkEvent.child r a, BulkEvent.sleepAccount]

/-- Join per-round event blocks with exactly one `round_delay` sleep between
consecutive rounds and none after the last. -/
def joinRounds : List (List BulkEvent) → List BulkEvent
  | [] => []
  | [b] => b
  | b :: rest => b ++ BulkEvent.sleepRound :: joinRounds rest

/-! ## Helper lemmas about the single-send scheduler -/

/-- The finally block leaves the task registry untouched. -/
theorem runFinally_pcs (s : SchedState) (a : Nat) : (runFinally s a).pcs = s.pcs := rfl

/-- The finally block increments the semaphore counter by one. -/
theorem runFinally_sem (s : SchedState) (a : Nat) : (runFinally s a).sem = s.sem + 1 := rfl

/-- The finally block clears the account's in-use flag. -/
theorem runFinally_locked (s : SchedState) (a : Nat) :
    (runFinally s a).locked = s.locked.erase a := rfl

/-- A scheduler step either leaves the registry unchanged or overwrites the
stepped task's own entry, and only when that task was waiting or mid-send. -/
theorem stepTask_pcs_cases (ts : List SendTask) (s : SchedState) (j : Nat) :
    (stepTask ts s j).pcs = s.pcs ∨
    ((s.pcs[j]? = some .waiting ∨ s.pcs[j]? = some .inSend) ∧
      ∃ p, (stepTask ts s j).pcs = s.pcs.set j p) := by
  unfold stepTask
  cases hts : ts[j]? with
  | none => exact Or.inl rfl
  | some t =>
    cases hpc : s.pcs[j]? with
    | none => exact Or.inl rfl
    | some pc =>
      cases pc with
      | waiting =>
        by_cases hsem : 0 < s.sem
        · simp only [if_pos hsem]
          by_cases hdb : t.dbRaises
          · simp only [hdb, if_true]
            exact Or.inr ⟨Or.inl trivial, _, rfl⟩
          · simp only [hdb, Bool.false_eq_true, if_false]
            by_cases hmem : t.account ∈ s.locked
            · simp only [if_pos hmem]
              exact Or.inr ⟨Or.inl trivial, _, rfl⟩
            · simp only [if_neg hmem]
              exact Or.inr ⟨Or.inl trivial, _, rfl⟩
        · simp only [if_neg hsem]
          exact Or.inl trivial
      | inSend => exact Or.inr ⟨Or.inr rfl, _, rfl⟩
      | finished r => exact Or.inl rfl

/-- A task whose registry entry is terminal is never touched again by any
scheduler step: the scheduler does not retry. -/
theorem stepTask_finished_fixed (ts : List SendTask) (s : SchedState) (i j : Nat)
    (r : StatusRec) (h : s.pcs[i]? = some (.finished r)) :
    (stepTask ts s j).pcs[i]? = some (.finished r) := by
  rcases stepTask_pcs_cases ts s j with hsame | ⟨hpcj, p, hset⟩
  · rw [hsame]; exact h
  · rw [hset]
    by_cases hij : j = i
    · subst hij
      rcases hpcj with h1 | h1 <;> rw [h1] at h <;> cases h
    · rw [List.getElem?_set_ne hij]
      exact h

/-- Terminal registry entries survive any further interleaving. -/
theorem runSched_finished_fixed (ts : List SendTask) (s : SchedState) (i : Nat)
    (r : StatusRec) (h : s.pcs[i]? = some (.finished r)) :
    ∀ sched : List Nat, (runSched ts s sched).pcs[i]? = some (.finished r) := by
  intro sched
  induction sched generalizing s with
  | nil => exact h
  | cons j rest ih => exact ih _ (stepTask_finished_fixed ts s i j r h)

/-! ## Claims C1-C5: the single-send scheduler -/

/-- Claim C1 (refuted; code bug): the claim states that no two `performSend`
invocations for the same account ever overlap, and that of N concurrent
submissions for the same free account exactly one proceeds to `performSend`
while the other N-1 fail with `account_in_use`.  With the default capacity 2
this fails: three concurrent `schedule_send_message` calls for free account 0,
interleaved as task 0, then task 1, then task 2, leave tasks 0 and 2
simultaneously suspended inside `performSend` for account 0.  The cause is
that task 1's `finally` block runs on the `account_in_use` rejection path and
clears the `in_use` flag that task 0 still holds, letting task 2 acquire it. -/
theorem c1_overlapping_sends_same_account :
    (runSched [⟨0, false, .ok⟩, ⟨0, false, .ok⟩, ⟨0, false, .ok⟩] (initState 2 3) [0, 1, 2]).pcs =
      [.inSend, .finished ⟨.failed, "account_in_use"⟩, .inSend] := by decide

/-- Claim C2 (refuted; code bug): the claim states that with configured
capacity C the number of concurrently executing `performSend` calls never
exceeds C and the semaphore's permit count never grows above C.  With
capacity 2 and four tasks (two targeting account 0, then accounts 1 and 2),
the interleaving 0,1,2,3 ends with three tasks concurrently inside
`performSend`, and completing the three leaves the semaphore counter at 3,
one above its capacity: the rejected task's `finally` block released the
permit a second time after the rejection path had already released it. -/
theorem c2_capacity_exceeded :
    inSendCount (runSched [⟨0, false, .ok⟩, ⟨0, false, .ok⟩, ⟨1, false, .ok⟩, ⟨2, false, .ok⟩]
        (initState 2 4) [0, 1, 2, 3]) = 3 ∧
    (runSched [⟨0, false, .ok⟩, ⟨0, false, .ok⟩, ⟨1, false, .ok⟩, ⟨2, false, .ok⟩]
        (initState 2 4) [0, 1, 2, 3, 0, 2, 3]).sem = 3 := by decide

/-- Claim C3 (confirmed): when the atomic account acquisition does not
succeed — the store raised (`dbRaises`) or the account was already locked —
the submission finishes immediately with status `failed` and error
`db_error` respectively `account_in_use`, the semaphore is released (the
counter does not drop; in fact it nets +1 because of the duplicated release),
`performSend` is never invoked (the task goes straight from waiting to a
terminal entry, never through `inSend`), and no later scheduler step retries
it: its registry entry stays the same under every further interleaving. -/
theorem c3_rejection_releases_permit_and_never_sends (ts : List SendTask) (s : SchedState)
    (i : Nat) (t : SendTask) (ht : ts[i]? = some t) (hpc : s.pcs[i]? = some .waiting)
    (hsem : 0 < s.sem) (hrej : t.dbRaises = true ∨ t.account ∈ s.locked) :
    (stepTask ts s i).pcs[i]? =
        some (.finished ⟨.failed, if t.dbRaises then "db_error" else "account_in_use"⟩) ∧
    (stepTask ts s i).sem = s.sem + 1 ∧
    ∀ sched : List Nat, (runSched ts (stepTask ts s i) sched).pcs[i]? =
        some (.finished ⟨.failed, if t.dbRaises then "db_error" else "account_in_use"⟩) := by
  have hi : i < s.pcs.length := (List.getElem?_eq_some.1 hpc).1
  have key : (stepTask ts s i).pcs[i]? =
      some (.finished ⟨.failed, if t.dbRaises then "db_error" else "account_in_use"⟩) ∧
      (stepTask ts s i).sem = s.sem + 1 := by
    by_cases hdb : t.dbRaises
    · constructor
      · unfold stepTask
        rw [ht, hpc]
        simp only [hdb, if_pos hsem, if_true, runFinally_pcs]
        rw [List.getElem?_set_self hi]
      · unfold stepTask
        rw [ht, hpc]
        simp only [hdb, if_pos hsem, if_true, runFinally_sem]
        omega
    · have hmem : t.account ∈ s.locked := by
        rcases hrej with h1 | h1
        · exact absurd h1 hdb
        · exact h1
      constructor
      · unfold stepTask
        rw [ht, hpc]
        simp only [hdb, Bool.false_eq_true, if_false, if_pos hsem, if_pos hmem, runFinally_pcs]
        rw [List.getElem?_set_self hi]
      · unfold stepTask
        rw [ht, hpc]
        simp only [hdb, Bool.false_eq_true, if_false, if_pos hsem, if_pos hmem, runFinally_sem]
        omega
  exact ⟨key.1, key.2, fun sched => runSched_finished_fixed ts _ i _ key.1 sched⟩

/-- Witness for C3: a concrete state in which task 0 holds account 7 and is
mid-send with one permit left; task 1's submission for account 7 is rejected
with `account_in_use`, releases the permit, and stays rejected under the
further interleaving 1,0,1. -/
theorem c3_rejection_witness :
    (stepTask [⟨7, false, .ok⟩, ⟨7, false, .ok⟩] ⟨1, [7], [.inSend, .waiting]⟩ 1).pcs[1]? =
        some (.finished ⟨.failed, "account_in_use"⟩) ∧
    (stepTask [⟨7, false, .ok⟩, ⟨7, false, .ok⟩] ⟨1, [7], [.inSend, .waiting]⟩ 1).sem = 1 + 1 ∧
    (runSched [⟨7, false, .ok⟩, ⟨7, false, .ok⟩]
        (stepTask [⟨7, false, .ok⟩, ⟨7, false, .ok⟩] ⟨1, [7], [.inSend, .waiting]⟩ 1)
        [1, 0, 1]).pcs[1]? = some (.finished ⟨.failed, "account_in_use"⟩) := by
  have h := c3_rejection_releases_permit_and_never_sends
    [⟨7, false, .ok⟩, ⟨7, false, .ok⟩] ⟨1, [7], [.inSend, .waiting]⟩ 1
    ⟨7, false, .ok⟩ rfl rfl (by decide) (Or.inr (by decide))
  exact ⟨h.1, h.2.1, h.2.2 [1, 0, 1]⟩

/-- Claim C4 (confirmed): an invocation that acquired the account lock (it is
suspended in `performSend`) runs the cleanup phase on every exit path —
`performSend` succeeding, reporting failure, or raising: its completion step
is exactly the terminal registry write followed by the `finally` block, which
clears the account lock first and releases the permit second; afterwards the
account is free and the semaphore counter is one higher, and a fresh waiting
submission for the same account immediately re-acquires it. -/
theorem c4_cleanup_on_every_exit (ts : List SendTask) (s : SchedState) (i : Nat)
    (t : SendTask) (ht : ts[i]? = some t) (hpc : s.pcs[i]? = some .inSend)
    (hnd : s.locked.Nodup) (hsem : 0 ≤ s.sem) :
    stepTask ts s i =
      runFinally { s with pcs := s.pcs.set i (.finished (outcomeRec t.outcome)) } t.account ∧
    t.account ∉ (stepTask ts s i).locked ∧
    (stepTask ts s i).sem = s.sem + 1 ∧
    ∀ j u, ts[j]? = some u → u.account = t.account → u.dbRaises = false →
      (stepTask ts s i).pcs[j]? = some .waiting →
      ((stepTask ts (stepTask ts s i) j).pcs[j]? = some .inSend ∧
        t.account ∈ (stepTask ts (stepTask ts s i) j).locked) := by
  have hstep : stepTask ts s i =
      runFinally { s with pcs := s.pcs.set i (.finished (outcomeRec t.outcome)) } t.account := by
    unfold stepTask
    rw [ht, hpc]
  have hnotmem : t.account ∉ (stepTask ts s i).locked := by
    rw [hstep, runFinally_locked]
    exact hnd.not_mem_erase
  have hsem' : (stepTask ts s i).sem = s.sem + 1 := by
    rw [hstep, runFinally_sem]
  refine ⟨hstep, hnotmem, hsem', ?_⟩
  intro j u htj hacc hdbu hwait
  have hsempos : 0 < (stepTask ts s i).sem := by omega
  have hj : j < (stepTask ts s i).pcs.length := (List.getElem?_eq_some.1 hwait).1
  have hnotmem' : u.account ∉ (stepTask ts s i).locked := by
    rw [hacc]; exact hnotmem
  generalize hgen : stepTask ts s i = s2 at hwait hsempos hj hnotmem'
  constructor
  · unfold stepTask
    rw [htj, hwait]
    simp only [if_pos hsempos, hdbu, Bool.false_eq_true, if_false, if_neg hnotmem']
    rw [List.getElem?_set_self hj]
  · unfold stepTask
    rw [htj, hwait]
    simp only [if_pos hsempos, hdbu, Bool.false_eq_true, if_false, if_neg hnotmem']
    rw [← hacc]
    exact List.mem_cons_self _ _

/-- Witness for C4: task 0 is mid-send on account 5 with `performSend` about
to raise an exception, the permit pool is exhausted and account 5 locked;
after its completion step the lock is free, the permit is back, and waiting
task 1 re-acquires account 5 on its next step. -/
theorem c4_cleanup_witness :
    stepTask [⟨5, false, .exn "boom"⟩, ⟨5, false, .ok⟩] ⟨0, [5], [.inSend, .waiting]⟩ 0 =
      runFinally
        (⟨0, [5], [SendPc.inSend, SendPc.waiting].set 0
          (.finished (outcomeRec (.exn "boom")))⟩ : SchedState) 5 ∧
    5 ∉ (stepTask [⟨5, false, .exn "boom"⟩, ⟨5, false, .ok⟩] ⟨0, [5], [.inSend, .waiting]⟩ 0).locked ∧
    (stepTask [⟨5, false, .exn "boom"⟩, ⟨5, false, .ok⟩] ⟨0, [5], [.inSend, .waiting]⟩ 0).sem = 0 + 1 ∧
    ((stepTask [⟨5, false, .exn "boom"⟩, ⟨5, false, .ok⟩]
        (stepTask [⟨5, false, .exn "boom"⟩, ⟨5, false, .ok⟩] ⟨0, [5], [.inSend, .waiting]⟩ 0)
        1).pcs[1]? = some .inSend ∧
      5 ∈ (stepTask [⟨5, false, .exn "boom"⟩, ⟨5, false, .ok⟩]
        (stepTask [⟨5, false, .exn "boom"⟩, ⟨5, false, .ok⟩] ⟨0, [5], [.inSend, .waiting]⟩ 0)
        1).locked) := by
  have h := c4_cleanup_on_every_exit [⟨5, false, .exn "boom"⟩, ⟨5, false, .ok⟩]
    ⟨0, [5], [.inSend, .waiting]⟩ 0 ⟨5, false, .exn "boom"⟩ rfl rfl (by decide) (by decide)
  exact ⟨h.1, h.2.1, h.2.2.1, h.2.2.2 1 ⟨5, false, .ok⟩ rfl rfl rfl (by decide)⟩

/-- Claim C5 (confirmed): the `finally` block of `schedule_send_message` also
runs on both rejection paths — `db_error` (the atomic acquire raised) and
`account_in_use` (the account was already locked) — which already released
the permit before returning.  On either path the submission's single atomic
step finishes it with the corresponding error, unconditionally sets the
account's `in_use` flag to 0 (the new lock state is the old one with the
account erased, so a lock held by a concurrent sender is cleared), and nets
+1 on the semaphore counter (one acquire, two releases), which is how the
pool can exceed its configured capacity. -/
theorem c5_finally_runs_on_rejection_paths (ts : List SendTask) (s : SchedState) (i : Nat)
    (t : SendTask) (ht : ts[i]? = some t) (hpc : s.pcs[i]? = some .waiting) (hsem : 0 < s.sem)
    (hrej : t.dbRaises = true ∨ t.account ∈ s.locked) (hnd : s.locked.Nodup) :
    (stepTask ts s i).pcs[i]? =
        some (.finished ⟨.failed, if t.dbRaises then "db_error" else "account_in_use"⟩) ∧
    (stepTask ts s i).locked = s.locked.erase t.account ∧
    t.account ∉ (stepTask ts s i).locked ∧
    (stepTask ts s i).sem = s.sem + 1 := by
  have hi : i < s.pcs.length := (List.getElem?_eq_some.1 hpc).1
  by_cases hdb : t.dbRaises
  · have hlock : (stepTask ts s i).locked = s.locked.erase t.account := by
      unfold stepTask
      rw [ht, hpc]
      simp only [hdb, if_pos hsem, if_true, runFinally_locked]
    refine ⟨?_, hlock, ?_, ?_⟩
    · unfold stepTask
      rw [ht, hpc]
      simp only [hdb, if_pos hsem, if_true, runFinally_pcs]
      rw [List.getElem?_set_self hi]
    · rw [hlock]
      exact hnd.not_mem_erase
    · unfold stepTask
      rw [ht, hpc]
      simp only [hdb, if_pos hsem, if_true, runFinally_sem]
      omega
  · have hmem : t.account ∈ s.locked := by
      rcases hrej with h1 | h1
      · exact absurd h1 hdb
      · exact h1
    have hlock : (stepTask ts s i).locked = s.locked.erase t.account := by
      unfold stepTask
      rw [ht, hpc]
      simp only [hdb, Bool.false_eq_true, if_false, if_pos hsem, if_pos hmem, runFinally_locked]
    refine ⟨?_, hlock, ?_, ?_⟩
    · unfold stepTask
      rw [ht, hpc]
      simp only [hdb, Bool.false_eq_true, if_false, if_pos hsem, if_pos hmem, runFinally_pcs]
      rw [List.getElem?_set_self hi]
    · rw [hlock]
      exact hnd.not_mem_erase
    · unfold stepTask
      rw [ht, hpc]
      simp only [hdb, Bool.false_eq_true, if_false, if_pos hsem, if_pos hmem, runFinally_sem]
      omega

/-- Witness for C5, exercising both rejection paths: task 0 holds account 3
mid-send with one permit left.  First, task 1's acquire finds the account
locked (`account_in_use`); second, with task 1 instead hitting a raising
store (`db_error`).  In both runs task 0's lock is cleared and the semaphore
goes from 1 to 2. -/
theorem c5_finally_witness :
    ((stepTask [⟨3, false, .ok⟩, ⟨3, false, .ok⟩] ⟨1, [3], [.inSend, .waiting]⟩ 1).pcs[1]? =
        some (.finished ⟨.failed, "account_in_use"⟩) ∧
      (stepTask [⟨3, false, .ok⟩, ⟨3, false, .ok⟩] ⟨1, [3], [.inSend, .waiting]⟩ 1).locked = [] ∧
      3 ∉ (stepTask [⟨3, false, .ok⟩, ⟨3, false, .ok⟩] ⟨1, [3], [.inSend, .waiting]⟩ 1).locked ∧
      (stepTask [⟨3, false, .ok⟩, ⟨3, false, .ok⟩] ⟨1, [3], [.inSend, .waiting]⟩ 1).sem = 1 + 1) ∧
    ((stepTask [⟨3, false, .ok⟩, ⟨3, true, .ok⟩] ⟨1, [3], [.inSend, .waiting]⟩ 1).pcs[1]? =
        some (.finished ⟨.failed, "db_error"⟩) ∧
      (stepTask [⟨3, false, .ok⟩, ⟨3, true, .ok⟩] ⟨1, [3], [.inSend, .waiting]⟩ 1).locked = [] ∧
      3 ∉ (stepTask [⟨3, false, .ok⟩, ⟨3, true, .ok⟩] ⟨1, [3], [.inSend, .waiting]⟩ 1).locked ∧
      (stepTask [⟨3, false, .ok⟩, ⟨3, true, .ok⟩] ⟨1, [3], [.inSend, .waiting]⟩ 1).sem = 1 + 1) :=
  ⟨c5_finally_runs_on_rejection_paths [⟨3, false, .ok⟩, ⟨3, false, .ok⟩]
      ⟨1, [3], [.inSend, .waiting]⟩ 1 ⟨3, false, .ok⟩
      rfl rfl (by decide) (Or.inr (by decide)) (by decide),
    c5_finally_runs_on_rejection_paths [⟨3, false, .ok⟩, ⟨3, true, .ok⟩]
      ⟨1, [3], [.inSend, .waiting]⟩ 1 ⟨3, true, .ok⟩
      rfl rfl (by decide) (Or.inl rfl) (by decide)⟩

/-! ## Helper lemmas about the campaign runner -/

/-- One round contributes one child per account. -/
theorem expectedChildren_length (sid : String) (r : Nat) (outcome : Nat → Nat → ChildOutcome) :
    ∀ (l : List (String × String)) (aIdx : Nat),
      (expectedChildren sid r outcome l aIdx).length = l.length := by
  intro l
  induction l with
  | nil => intro aIdx; rfl
  | cons hd tl ih =>
    intro aIdx
    obtain ⟨accid, prof⟩ := hd
    simp [expectedChildren, ih]

/-- When the `sent_count >= total_to_send` break cannot fire, the inner
account loop visits the whole snapshot in order: one child per account with
the derived session id, one `account_delay` sleep after every child, and
`sent_count` grows by the number of accounts. -/
theorem runAccounts_no_break (sid : String) (r : Nat) (outcome : Nat → Nat → ChildOutcome)
    (total : Nat) : ∀ (l : List (String × String)) (aIdx sent : Nat),
    sent + l.length ≤ total →
    runAccounts sid r outcome total l aIdx sent =
      ⟨expectedChildren sid r outcome l aIdx,
       (List.range' aIdx l.length).flatMap (fun a => [BulkEvent.child r a, BulkEvent.sleepAccount]),
       sent + l.length⟩ := by
  intro l
  induction l with
  | nil =>
    intro aIdx sent h
    simp [runAccounts, expectedChildren]
  | cons hd tl ih =>
    intro aIdx sent h
    obtain ⟨accid, prof⟩ := hd
    have hlt : ¬ total ≤ sent := by
      simp only [List.length_cons] at h
      omega
    rw [runAccounts, if_neg hlt,
      ih (aIdx + 1) (sent + 1) (by simp only [List.length_cons] at h ⊢; omega)]
    simp only [List.length_cons, List.range'_succ, List.flatMap_cons, expectedChildren,
      AccOut.mk.injEq]
    refine ⟨trivial, rfl, by omega⟩

/-- The round loop exits once `round_idx` reaches `rounds`. -/
theorem runRounds_stop (sid : String) (accounts : List (String × String))
    (outcome : Nat → Nat → ChildOutcome) (cancel : Nat → Bool)
    (total rounds roundIdx sent : Nat) (h : ¬ roundIdx < rounds) :
    runRounds sid accounts outcome cancel total rounds roundIdx sent = ⟨false, [], [], sent⟩ := by
  unfold runRounds
  rw [if_neg h]

/-- A boundary check that observes the cancellation flag stops the loop with
the accumulated state. -/
theorem runRounds_cancelled_here (sid : String) (accounts : List (String × String))
    (outcome : Nat → Nat → ChildOutcome) (cancel : Nat → Bool)
    (total rounds roundIdx sent : Nat) (h : roundIdx < rounds) (hc : cancel roundIdx = true) :
    runRounds sid accounts outcome cancel total rounds roundIdx sent = ⟨true, [], [], sent⟩ := by
  unfold runRounds
  rw [if_pos h, if_pos hc]

/-- Unfolding of a round that is entered and not cancelled. -/
theorem runRounds_go (sid : String) (accounts : List (String × String))
    (outcome : Nat → Nat → ChildOutcome) (cancel : Nat → Bool)
    (total rounds roundIdx sent : Nat) (h : roundIdx < rounds) (hc : cancel roundIdx = false) :
    runRounds sid accounts outcome cancel total rounds roundIdx sent =
      (let ra := runAccounts sid roundIdx outcome total accounts 0 sent
       let rest := runRounds sid accounts outcome cancel total rounds (roundIdx + 1) ra.sent
       ⟨rest.wasCancelled,
        ra.results ++ rest.results,
        ra.events ++ (if roundIdx + 1 < rounds then BulkEvent.sleepRound :: rest.events
          else rest.events),
        rest.sent⟩) := by
  conv_lhs => unfold runRounds
  rw [if_pos h]
  rw [if_neg (by rw [hc]; exact Bool.false_ne_true)]

/-- The per-round event block, in the indexing produced by the account loop. -/
theorem roundBlock_eq_range' (r n : Nat) :
    roundBlock r n =
      (List.range' 0 n).flatMap (fun a => [BulkEvent.child r a, BulkEvent.sleepAccount]) := by
  rw [roundBlock, List.range_eq_range']

/-- Unfolding of one full uncancelled round whose account loop cannot hit the
break: its children, its events, and the `sent_count` update, spelled out. -/
theorem runRounds_step_full (sid : String) (accounts : List (String × String))
    (outcome : Nat → Nat → ChildOutcome) (cancel : Nat → Bool)
    (total rounds roundIdx sent : Nat) (h : roundIdx < rounds)
    (hc : cancel roundIdx = false) (hsle : sent + accounts.length ≤ total) :
    runRounds sid accounts outcome cancel total rounds roundIdx sent =
      ⟨(runRounds sid accounts outcome cancel total rounds (roundIdx + 1)
          (sent + accounts.length)).wasCancelled,
       expectedChildren sid roundIdx outcome accounts 0 ++
         (runRounds sid accounts outcome cancel total rounds (roundIdx + 1)
           (sent + accounts.length)).results,
       ((List.range' 0 accounts.length).flatMap
           (fun a => [BulkEvent.child roundIdx a, BulkEvent.sleepAccount])) ++
         (if roundIdx + 1 < rounds then
            BulkEvent.sleepRound :: (runRounds sid accounts outcome cancel total rounds
              (roundIdx + 1) (sent + accounts.length)).events
          else (runRounds sid accounts outcome cancel total rounds (roundIdx + 1)
              (sent + accounts.length)).events),
       (runRounds sid accounts outcome cancel total rounds (roundIdx + 1)
          (sent + accounts.length)).sent⟩ := by
  rw [runRounds_go _ _ _ _ _ _ _ _ h hc,
      runAccounts_no_break _ _ _ _ accounts 0 _ hsle]

/-- A run whose boundary checks never observe the cancellation flag executes
every remaining round in order: round-major children, per-round event blocks
joined by single `round_delay` sleeps, and a final `sent_count` equal to
`total_to_send`. -/
theorem runRounds_no_cancel (sid : String) (accounts : List (String × String))
    (outcome : Nat → Nat → ChildOutcome) (cancel : Nat → Bool) (rounds : Nat) :
    ∀ (d roundIdx : Nat), rounds - roundIdx = d → roundIdx ≤ rounds →
    (∀ r, roundIdx ≤ r → r < rounds → cancel r = false) →
    runRounds sid accounts outcome cancel (rounds * accounts.length) rounds roundIdx
        (roundIdx * accounts.length) =
      ⟨false,
       (List.range' roundIdx (rounds - roundIdx)).flatMap
         (fun r => expectedChildren sid r outcome accounts 0),
       joinRounds ((List.range' roundIdx (rounds - roundIdx)).map
         (fun r => roundBlock r accounts.length)),
       rounds * accounts.length⟩ := by
  intro d
  induction d with
  | zero =>
    intro roundIdx hd hle hnc
    have heq : roundIdx = rounds := by omega
    subst heq
    rw [runRounds_stop _ _ _ _ _ _ _ _ (by omega), hd]
    simp [joinRounds]
  | succ d ih =>
    intro roundIdx hd hle hnc
    have hlt : roundIdx < rounds := by omega
    have hsm : (roundIdx + 1) * accounts.length = roundIdx * accounts.length + accounts.length :=
      Nat.succ_mul _ _
    have hsle : roundIdx * accounts.length + accounts.length ≤ rounds * accounts.length := by
      calc roundIdx * accounts.length + accounts.length
          = (roundIdx + 1) * accounts.length := hsm.symm
        _ ≤ rounds * accounts.length := Nat.mul_le_mul_right _ hlt
    rw [runRounds_step_full _ _ _ _ _ _ _ _ hlt (hnc roundIdx le_rfl hlt) hsle]
    rw [show roundIdx * accounts.length + accounts.length = (roundIdx + 1) * accounts.length
        from hsm.symm]
    rw [ih (roundIdx + 1) (by omega) (by omega) (fun r h1 h2 => hnc r (by omega) h2)]
    rw [hd, show rounds - (roundIdx + 1) = d by omega]
    cases d with
    | zero =>
      have h1 : ¬ (roundIdx + 1 < rounds) := by omega
      rw [if_neg h1]
      simp [List.range'_succ, joinRounds, roundBlock_eq_range']
    | succ d2 =>
      have h1 : roundIdx + 1 < rounds := by omega
      rw [if_pos h1]
      simp [List.range'_succ, joinRounds, roundBlock_eq_range']

/-- A run whose first observed cancellation is at the boundary of round `r`
executes exactly the rounds before `r` and stops there as cancelled, with
`sent_count` equal to the children of those completed rounds. -/
theorem runRounds_cancel_at (sid : String) (accounts : List (String × String))
    (outcome : Nat → Nat → ChildOutcome) (cancel : Nat → Bool) (rounds r : Nat)
    (hr : r < rounds) (hc : cancel r = true) :
    ∀ (d roundIdx : Nat), r - roundIdx = d → roundIdx ≤ r →
    (∀ r', roundIdx ≤ r' → r' < r → cancel r' = false) →
    runRounds sid accounts outcome cancel (rounds * accounts.length) rounds roundIdx
        (roundIdx * accounts.length) =
      ⟨true,
       (List.range' roundIdx (r - roundIdx)).flatMap
         (fun ri => expectedChildren sid ri outcome accounts 0),
       (List.range' roundIdx (r - roundIdx)).flatMap
         (fun ri => roundBlock ri accounts.length ++ [BulkEvent.sleepRound]),
       r * accounts.length⟩ := by
  intro d
  induction d with
  | zero =>
    intro roundIdx hd hle hnc
    have heq : roundIdx = r := by omega
    subst heq
    rw [runRounds_cancelled_here _ _ _ _ _ _ _ _ (by omega) hc, hd]
    simp
  | succ d ih =>
    intro roundIdx hd hle hnc
    have hlt : roundIdx < r := by omega
    have hsm : (roundIdx + 1) * accounts.length = roundIdx * accounts.length + accounts.length :=
      Nat.succ_mul _ _
    have hsle : roundIdx * accounts.length + accounts.length ≤ rounds * accounts.length := by
      calc roundIdx * accounts.length + accounts.length
          = (roundIdx + 1) * accounts.length := hsm.symm
        _ ≤ rounds * accounts.length := Nat.mul_le_mul_right _ (by omega)
    rw [runRounds_step_full _ _ _ _ _ _ _ _ (by omega) (hnc roundIdx le_rfl hlt) hsle]
    rw [show roundIdx * accounts.length + accounts.length = (roundIdx + 1) * accounts.length
        from hsm.symm]
    rw [ih (roundIdx + 1) (by omega) (by omega) (fun r' h1 h2 => hnc r' (by omega) h2)]
    rw [if_pos (show roundIdx + 1 < rounds by omega)]
    rw [hd, show r - (roundIdx + 1) = d by omega]
    simp [List.range'_succ, roundBlock_eq_range']

/-- Lines 115-120 of `app/tasks.py`: `total_to_send` is always the number of
rounds times the snapshot size. -/
theorem bulkTotal_eq (perAccount : Bool) (count : Int) (n : Nat) :
    bulkTotal perAccount count n = bulkRounds perAccount count * n := by
  cases perAccount <;> simp [bulkTotal, bulkRounds, Nat.mul_comm]

/-- A non-empty account list is not `isEmpty`. -/
theorem isEmpty_false_of_ne (accounts : List (String × String)) (hacc : accounts ≠ []) :
    accounts.isEmpty = false := by
  cases accounts with
  | nil => exact absurd rfl hacc
  | cons a l => rfl

/-- Final aggregation of `schedule_bulk_send` as a function of the round
loop's result. -/
theorem schedule_bulk_send_eq_of_run (sid : String) (count : Int) (perAccount : Bool)
    (accounts : List (String × String)) (outcome : Nat → Nat → ChildOutcome)
    (cancel : Nat → Bool) (ro : RoundsOut) (hne : accounts.isEmpty = false)
    (hrun : runRounds sid accounts outcome cancel (bulkTotal perAccount count accounts.length)
        (bulkRounds perAccount count) 0 0 = ro) :
    schedule_bulk_send sid count perAccount accounts outcome cancel =
      (if ro.wasCancelled then
        ⟨.cancelled, "", ro.sent, ro.results, ro.events⟩
       else if ro.results.any childSucceeded then
        ⟨.done, "", bulkTotal perAccount count accounts.length, ro.results, ro.events⟩
       else
        ⟨.failed, "no_success", bulkTotal perAccount count accounts.length,
          ro.results, ro.events⟩) := by
  unfold schedule_bulk_send
  simp only [hne, Bool.false_eq_true, if_false, hrun]

/-- An uncancelled campaign over a non-empty snapshot: the full round-major
results, the full event trace, and the aggregation over them. -/
theorem bulk_no_cancel_run (sid : String) (count : Int) (perAccount : Bool)
    (accounts : List (String × String)) (outcome : Nat → Nat → ChildOutcome)
    (cancel : Nat → Bool) (hacc : accounts ≠ [])
    (hnc : ∀ r, r < bulkRounds perAccount count → cancel r = false) :
    schedule_bulk_send sid count perAccount accounts outcome cancel =
      (if ((List.range (bulkRounds perAccount count)).flatMap
            (fun ri => expectedChildren sid ri outcome accounts 0)).any childSucceeded then
        ⟨.done, "", bulkTotal perAccount count accounts.length,
          (List.range (bulkRounds perAccount count)).flatMap
            (fun ri => expectedChildren sid ri outcome accounts 0),
          joinRounds ((List.range (bulkRounds perAccount count)).map
            (fun r => roundBlock r accounts.length))⟩
       else
        ⟨.failed, "no_success", bulkTotal perAccount count accounts.length,
          (List.range (bulkRounds perAccount count)).flatMap
            (fun ri => expectedChildren sid ri outcome accounts 0),
          joinRounds ((List.range (bulkRounds perAccount count)).map
            (fun r => roundBlock r accounts.length))⟩) := by
  have hne := isEmpty_false_of_ne accounts hacc
  have hrun := runRounds_no_cancel sid accounts outcome cancel (bulkRounds perAccount count)
    (bulkRounds perAccount count) 0 (by omega) (by omega) (fun r' h1 h2 => hnc r' h2)
  rw [Nat.zero_mul, Nat.sub_zero, ← bulkTotal_eq] at hrun
  rw [schedule_bulk_send_eq_of_run sid count perAccount accounts outcome cancel _ hne hrun]
  simp [List.range_eq_range']

/-- Each round contributes `accounts.length` children to the flattened
round-major results list. -/
theorem flatMap_expectedChildren_length (sid : String) (outcome : Nat → Nat → ChildOutcome)
    (accounts : List (String × String)) (l : List Nat) :
    (l.flatMap (fun ri => expectedChildren sid ri outcome accounts 0)).length =
      l.length * accounts.length := by
  induction l with
  | nil => simp
  | cons hd tl ih =>
    simp [List.flatMap_cons, expectedChildren_length, ih, Nat.succ_mul, Nat.add_comm]

/-- In non-per-account mode with a positive `count`, the number of rounds is
`count`. -/
theorem bulkRounds_pos (count : Int) (hcount : 0 < count) :
    bulkRounds false count = count.toNat := by
  simp [bulkRounds, hcount]

/-! ## Claims C6-C10: the campaign runner -/

/-- Claim C6 (confirmed): if the cancellation flag is first observed at the
boundary check before round `r` (rounds are 0-indexed here; `r` below any
earlier boundary saw the flag unset), the campaign finalizes with status
`cancelled` — never `done` or `failed` — and its results are exactly the
children of the completed rounds `0..r-1` in round-major snapshot order,
with no child from round `r` onward, regardless of the children's
outcomes. -/
theorem c6_cancel_at_boundary (sid : String) (count : Int) (perAccount : Bool)
    (accounts : List (String × String)) (outcome : Nat → Nat → ChildOutcome)
    (cancel : Nat → Bool) (r : Nat) (hacc : accounts ≠ [])
    (hr : r < bulkRounds perAccount count)
    (hfirst : ∀ r', r' < r → cancel r' = false) (hc : cancel r = true) :
    (schedule_bulk_send sid count perAccount accounts outcome cancel).status = .cancelled ∧
    (schedule_bulk_send sid count perAccount accounts outcome cancel).status ≠ .done ∧
    (schedule_bulk_send sid count perAccount accounts outcome cancel).status ≠ .failed ∧
    (schedule_bulk_send sid count perAccount accounts outcome cancel).results =
      (List.range r).flatMap (fun ri => expectedChildren sid ri outcome accounts 0) := by
  have hne := isEmpty_false_of_ne accounts hacc
  have hrun := runRounds_cancel_at sid accounts outcome cancel (bulkRounds perAccount count)
    r hr hc r 0 (by omega) (by omega) (fun r' h1 h2 => hfirst r' h2)
  rw [Nat.zero_mul, Nat.sub_zero, ← bulkTotal_eq] at hrun
  rw [schedule_bulk_send_eq_of_run sid count perAccount accounts outcome cancel _ hne hrun]
  simp [List.range_eq_range']

/-- Witness for C6: one account, three rounds, every child succeeding, the
flag set from the boundary of round 2 on (0-indexed round 1): the campaign is
`cancelled` with exactly the one child of round 1 in its results. -/
theorem c6_cancel_witness :
    (schedule_bulk_send "s" 3 false [("a", "p")] (fun _ _ => .res true)
        (fun r => decide (1 ≤ r))).status = .cancelled ∧
    (schedule_bulk_send "s" 3 false [("a", "p")] (fun _ _ => .res true)
        (fun r => decide (1 ≤ r))).status ≠ .done ∧
    (schedule_bulk_send "s" 3 false [("a", "p")] (fun _ _ => .res true)
        (fun r => decide (1 ≤ r))).status ≠ .failed ∧
    (schedule_bulk_send "s" 3 false [("a", "p")] (fun _ _ => .res true)
        (fun r => decide (1 ≤ r))).results =
      [⟨"s_r1_a1", "a", .res true⟩] := by
  have h := c6_cancel_at_boundary "s" 3 false [("a", "p")] (fun _ _ => .res true)
    (fun r => decide (1 ≤ r)) 1 (by decide) (by decide) (by decide) (by decide)
  exact ⟨h.1, h.2.1, h.2.2.1, h.2.2.2.trans (by decide)⟩

/-- Claim C7 (confirmed): a campaign over a non-empty snapshot that runs to
completion without any boundary observing the cancellation flag always
contains every child of every round in its results — an individual child
failing or raising never stops the run — and its final status is `done` when
at least one child outcome has a true `ok` field, and otherwise `failed` with
error `no_success`. -/
theorem c7_final_status_aggregation (sid : String) (count : Int) (perAccount : Bool)
    (accounts : List (String × String)) (outcome : Nat → Nat → ChildOutcome)
    (cancel : Nat → Bool) (hacc : accounts ≠ [])
    (hnc : ∀ r, r < bulkRounds perAccount count → cancel r = false) :
    (schedule_bulk_send sid count perAccount accounts outcome cancel).results =
      (List.range (bulkRounds perAccount count)).flatMap
        (fun ri => expectedChildren sid ri outcome accounts 0) ∧
    ((schedule_bulk_send sid count perAccount accounts outcome cancel).results.any
        childSucceeded = true →
      (schedule_bulk_send sid count perAccount accounts outcome cancel).status = .done) ∧
    ((schedule_bulk_send sid count perAccount accounts outcome cancel).results.any
        childSucceeded = false →
      (schedule_bulk_send sid count perAccount accounts outcome cancel).status = .failed ∧
      (schedule_bulk_send sid count perAccount accounts outcome cancel).error =
        "no_success") := by
  rw [bulk_no_cancel_run sid count perAccount accounts outcome cancel hacc hnc]
  by_cases hany : ((List.range (bulkRounds perAccount count)).flatMap
      (fun ri => expectedChildren sid ri outcome accounts 0)).any childSucceeded
  · simp [hany]
  · simp only [Bool.not_eq_true] at hany
    simp [hany]

/-- Witness for C7: per-account mode over two accounts where the first child
fails and the second succeeds: both children are in the results and the
campaign is `done`. -/
theorem c7_final_status_witness :
    (schedule_bulk_send "t" 5 true [("a1", "p1"), ("a2", "p2")]
        (fun _ a => .res (decide (a = 1))) (fun _ => false)).results =
      [⟨"t_r1_a1", "a1", .res false⟩, ⟨"t_r1_a2", "a2", .res true⟩] ∧
    (schedule_bulk_send "t" 5 true [("a1", "p1"), ("a2", "p2")]
        (fun _ a => .res (decide (a = 1))) (fun _ => false)).status = .done := by
  have h := c7_final_status_aggregation "t" 5 true [("a1", "p1"), ("a2", "p2")]
    (fun _ a => .res (decide (a = 1))) (fun _ => false) (by decide) (by decide)
  exact ⟨h.1.trans (by decide), h.2.1 (by rw [h.1]; decide)⟩

/-- Claim C8 (confirmed): a non-per-account campaign with `count = R > 0`
rounds over a non-empty snapshot of `N` accounts, never observing the
cancellation flag, submits exactly `R * N` children, in round-major order
following the snapshot's account order within each round, each with the
deterministic child session id derived from the parent id, the round index
and the account index by `childSid`. -/
theorem c8_round_major_children (sid : String) (count : Int)
    (accounts : List (String × String)) (outcome : Nat → Nat → ChildOutcome)
    (cancel : Nat → Bool) (hacc : accounts ≠ []) (hcount : 0 < count)
    (hnc : ∀ r, r < count.toNat → cancel r = false) :
    (schedule_bulk_send sid count false accounts outcome cancel).results =
      (List.range count.toNat).flatMap
        (fun ri => expectedChildren sid ri outcome accounts 0) ∧
    (schedule_bulk_send sid count false accounts outcome cancel).results.length =
      count.toNat * accounts.length := by
  have hbr := bulkRounds_pos count hcount
  have hres : (schedule_bulk_send sid count false accounts outcome cancel).results =
      (List.range count.toNat).flatMap
        (fun ri => expectedChildren sid ri outcome accounts 0) := by
    rw [bulk_no_cancel_run sid count false accounts outcome cancel hacc
      (by rw [hbr]; exact hnc), hbr]
    by_cases hany : ((List.range count.toNat).flatMap
        (fun ri => expectedChildren sid ri outcome accounts 0)).any childSucceeded
    · simp [hany]
    · simp only [Bool.not_eq_true] at hany
      simp [hany]
  refine ⟨hres, ?_⟩
  rw [hres, flatMap_expectedChildren_length, List.length_range]

/-- Witness for C8: two rounds over two accounts yield the four children in
round-major order with the derived session ids. -/
theorem c8_round_major_witness :
    (schedule_bulk_send "u" 2 false [("a1", "p1"), ("a2", "p2")]
        (fun _ _ => .res true) (fun _ => false)).results =
      [⟨"u_r1_a1", "a1", .res true⟩, ⟨"u_r1_a2", "a2", .res true⟩,
       ⟨"u_r2_a1", "a1", .res true⟩, ⟨"u_r2_a2", "a2", .res true⟩] ∧
    (schedule_bulk_send "u" 2 false [("a1", "p1"), ("a2", "p2")]
        (fun _ _ => .res true) (fun _ => false)).results.length = 4 := by
  have h := c8_round_major_children "u" 2 [("a1", "p1"), ("a2", "p2")]
    (fun _ _ => .res true) (fun _ => false) (by decide) (by decide) (by decide)
  exact ⟨h.1.trans (by decide), h.2.trans (by decide)⟩

/-- Claim C9 (confirmed): in an uncancelled non-per-account campaign the
event trace is exactly the per-round blocks joined by single `round_delay`
sleeps: within a block every child is immediately followed by exactly one
`account_delay` sleep — including the last child of each round — one
`round_delay` sleep stands between the last child of round `r` (after its
`account_delay`) and the first child of round `r+1`, and no `round_delay`
follows the final round. -/
theorem c9_pacing_structure (sid : String) (count : Int)
    (accounts : List (String × String)) (outcome : Nat → Nat → ChildOutcome)
    (cancel : Nat → Bool) (hacc : accounts ≠ []) (hcount : 0 < count)
    (hnc : ∀ r, r < count.toNat → cancel r = false) :
    (schedule_bulk_send sid count false accounts outcome cancel).events =
      joinRounds ((List.range count.toNat).map (fun r => roundBlock r accounts.length)) := by
  have hbr := bulkRounds_pos count hcount
  rw [bulk_no_cancel_run sid count false accounts outcome cancel hacc
    (by rw [hbr]; exact hnc), hbr]
  by_cases hany : ((List.range count.toNat).flatMap
      (fun ri => expectedChildren sid ri outcome accounts 0)).any childSucceeded
  · simp [hany]
  · simp only [Bool.not_eq_true] at hany
    simp [hany]

/-- Witness for C9: two rounds over one account produce child, account sleep,
round sleep, child, account sleep — and nothing after the final round's
account sleep. -/
theorem c9_pacing_witness :
    (schedule_bulk_send "v" 2 false [("a", "p")]
        (fun _ _ => .res true) (fun _ => false)).events =
      [.child 0 0, .sleepAccount, .sleepRound, .child 1 0, .sleepAccount] := by
  have h := c9_pacing_structure "v" 2 [("a", "p")] (fun _ _ => .res true) (fun _ => false)
    (by decide) (by decide) (by decide)
  exact h.trans (by decide)

/-- Claim C10 (confirmed): a campaign whose account snapshot is empty fails
immediately with error `no_accounts`, with no child submitted and no pacing
event emitted. -/
theorem c10_no_accounts (sid : String) (count : Int) (perAccount : Bool)
    (outcome : Nat → Nat → ChildOutcome) (cancel : Nat → Bool) :
    (schedule_bulk_send sid count perAccount [] outcome cancel).status = .failed ∧
    (schedule_bulk_send sid count perAccount [] outcome cancel).error = "no_accounts" ∧
    (schedule_bulk_send sid count perAccount [] outcome cancel).results = [] ∧
    (schedule_bulk_send sid count perAccount [] outcome cancel).events = [] := by
  simp [schedule_bulk_send]

end WhatsAppSend
